import Mathlib

/-!
Verification development for the flowmarker persistence core
(src/src-tauri/src/lib.rs): the two operations save_flm and load_flm over
a single-member compressed container holding a JSON payload tagged with
format = flowmark.

The filesystem, the zip container codec, the UTF-8 text decoding and the
JSON value parsing performed by the external libraries (std::fs, zip,
serde_json) are embedded shallowly: files are an abstract map from paths
to file data, a well-formed container is a list of named members, and the
JSON grammar is implemented directly after RFC 8259 as serde_json parses
it.
-/

namespace Flowmarker

/-! ## JSON values, after serde_json Value -/

/-- A JSON value as serde_json represents it.  Numbers keep their source
lexeme: the flowmarker core never inspects numeric values, only the
string-typed format field, so the lexeme is a faithful abstraction. -/
inductive Json where
  | null : Json
  | bool (b : Bool) : Json
  | num (lexeme : String) : Json
  | str (s : String) : Json
  | arr (elems : List Json) : Json
  | obj (fields : List (String × Json)) : Json

/-- Lookup of a key in an object field list: first match wins.  The parser
below keeps keys unique (a duplicate key overwrites in place, as inserting
into the serde_json map does), so this is the map lookup. -/
def lookupField : List (String × Json) → String → Option Json
  | [], _ => none
  | (k, v) :: rest, key => if k = key then some v else lookupField rest key

/-- Value::get with a string index: a map lookup on an object, None on
every other variant. -/
def Json.get : Json → String → Option Json
  | .obj fields, key => lookupField fields key
  | _, _ => none

/-- Value::as_str: the payload of a string variant, None otherwise. -/
def Json.asStr : Json → Option String
  | .str s => some s
  | _ => none

/-- Insert a key into an object field list, overwriting the value in
place when the key is already present, as the serde_json map insert
does. -/
def insertField : List (String × Json) → String → Json → List (String × Json)
  | [], k, v => [(k, v)]
  | (k0, v0) :: rest, k, v =>
    if k0 = k then (k0, v) :: rest else (k0, v0) :: insertField rest k v

/-! ## JSON text grammar, after RFC 8259 as serde_json reads it.
Characters are compared through their code points to keep the text plain:
34 is the double quote, 92 the backslash, 123 and 125 the braces, 91 and
93 the square brackets, 58 the colon, 44 the comma. -/

/-- JSON insignificant whitespace: space, tab, line feed, carriage
return. -/
def isJsonWs (c : Char) : Bool :=
  c.toNat = 32 || c.toNat = 9 || c.toNat = 10 || c.toNat = 13

/-- Drop leading JSON whitespace. -/
def skipWs : List Char → List Char
  | [] => []
  | c :: cs => if isJsonWs c then skipWs cs else c :: cs

/-- Decimal digit test on the code point. -/
def isDigitChar (c : Char) : Bool := 48 ≤ c.toNat && c.toNat ≤ 57

/-- Split a character list into its leading run of decimal digits and the
rest. -/
def takeDigits : List Char → List Char × List Char
  | [] => ([], [])
  | c :: cs =>
    if isDigitChar c then
      let (ds, rest) := takeDigits cs
      (c :: ds, rest)
    else ([], c :: cs)

/-- Value of one hexadecimal digit character, if it is one. -/
def hexVal (c : Char) : Option Nat :=
  if 48 ≤ c.toNat && c.toNat ≤ 57 then some (c.toNat - 48)
  else if 97 ≤ c.toNat && c.toNat ≤ 102 then some (c.toNat - 87)
  else if 65 ≤ c.toNat && c.toNat ≤ 70 then some (c.toNat - 55)
  else none

/-- Read exactly four hexadecimal digits as a number. -/
def parseHex4 : List Char → Option (Nat × List Char)
  | c1 :: c2 :: c3 :: c4 :: rest =>
    match hexVal c1, hexVal c2, hexVal c3, hexVal c4 with
    | some h1, some h2, some h3, some h4 =>
        some (h1 * 4096 + h2 * 256 + h3 * 16 + h4, rest)
    | _, _, _, _ => none
  | _ => none

/-- Body of a JSON string literal, entered just after the opening quote.
Escapes are decoded as serde_json decodes them, including surrogate
pairs; an unescaped control character, a lone surrogate or a malformed
escape is an error.  The accumulator holds the decoded characters in
reverse. -/
def parseJString : Nat → List Char → List Char → Option (String × List Char)
  | 0, _, _ => none
  | Nat.succ fuel, cs, acc =>
    match cs with
    | [] => none
    | c :: rest =>
      if c.toNat = 34 then some (String.mk acc.reverse, rest)
      else if c.toNat = 92 then
        match rest with
        | [] => none
        | e :: rest2 =>
          if e.toNat = 34 then parseJString fuel rest2 (Char.ofNat 34 :: acc)
          else if e.toNat = 92 then parseJString fuel rest2 (Char.ofNat 92 :: acc)
          else if e.toNat = 47 then parseJString fuel rest2 (Char.ofNat 47 :: acc)
          else if e.toNat = 98 then parseJString fuel rest2 (Char.ofNat 8 :: acc)
          else if e.toNat = 102 then parseJString fuel rest2 (Char.ofNat 12 :: acc)
          else if e.toNat = 110 then parseJString fuel rest2 (Char.ofNat 10 :: acc)
          else if e.toNat = 114 then parseJString fuel rest2 (Char.ofNat 13 :: acc)
          else if e.toNat = 116 then parseJString fuel rest2 (Char.ofNat 9 :: acc)
          else if e.toNat = 117 then
            match parseHex4 rest2 with
            | none => none
            | some (n, rest3) =>
              if n < 55296 || 57343 < n then
                parseJString fuel rest3 (Char.ofNat n :: acc)
              else if n < 56320 then
                match rest3 with
                | d1 :: d2 :: rest4 =>
                  if d1.toNat = 92 && d2.toNat = 117 then
                    match parseHex4 rest4 with
                    | none => none
                    | some (m, rest5) =>
                      if 56320 ≤ m && m ≤ 57343 then
                        parseJString fuel rest5
                          (Char.ofNat (65536 + (n - 55296) * 1024 + (m - 56320)) :: acc)
                      else none
                  else none
                | _ => none
              else none
          else none
      else if c.toNat < 32 then none
      else parseJString fuel rest (c :: acc)

/-- A JSON number lexeme starting at the head of the input: optional
minus, integer part with no leading zero, optional fraction, optional
exponent.  Returns the lexeme and the rest of the input. -/
def parseNumber (cs : List Char) : Option (String × List Char) :=
  let (sign, cs1) :=
    match cs with
    | c :: rest => if c.toNat = 45 then ([c], rest) else (([] : List Char), cs)
    | [] => ([], cs)
  match cs1 with
  | [] => none
  | c :: rest =>
    if c.toNat = 48 then
      let (intPart, cs2) := ([c], rest)
      parseNumberFrac sign intPart cs2
    else if 49 ≤ c.toNat && c.toNat ≤ 57 then
      let (ds, cs2) := takeDigits rest
      parseNumberFrac sign (c :: ds) cs2
    else none
where
  /-- Optional fraction and exponent after the integer part. -/
  parseNumberFrac (sign intPart : List Char) (cs2 : List Char) :
      Option (String × List Char) :=
    let (fracPart, cs3) :=
      match cs2 with
      | c :: rest =>
        if c.toNat = 46 then
          match takeDigits rest with
          | ([], _) => ([], none)
          | (ds, cs3) => (c :: ds, some cs3)
        else (([] : List Char), some cs2)
      | [] => ([], some cs2)
    match cs3 with
    | none => none
    | some cs3 =>
      let (expPart, cs4) :=
        match cs3 with
        | c :: rest =>
          if c.toNat = 101 || c.toNat = 69 then
            let (signE, rest2) :=
              match rest with
              | d :: rest2 =>
                if d.toNat = 43 || d.toNat = 45 then ([d], rest2)
                else (([] : List Char), rest)
              | [] => ([], rest)
            match takeDigits rest2 with
            | ([], _) => ([], none)
            | (ds, cs4) => (c :: (signE ++ ds), some cs4)
          else (([] : List Char), some cs3)
        | [] => ([], some cs3)
      match cs4 with
      | none => none
      | some cs4 => some (String.mk (sign ++ intPart ++ fracPart ++ expPart), cs4)

mutual

/-- One JSON value, preceded by optional whitespace.  The fuel bounds the
recursion depth; the entry point supplies more fuel than any input can
consume, mirroring that serde_json bounds nesting depth. -/
def parseValue : Nat → List Char → Option (Json × List Char)
  | 0, _ => none
  | Nat.succ fuel, cs0 =>
    match skipWs cs0 with
    | [] => none
    | c :: rest =>
      if c.toNat = 110 then
        match rest with
        | c1 :: c2 :: c3 :: rest2 =>
          if c1.toNat = 117 && c2.toNat = 108 && c3.toNat = 108 then
            some (Json.null, rest2)
          else none
        | _ => none
      else if c.toNat = 116 then
        match rest with
        | c1 :: c2 :: c3 :: rest2 =>
          if c1.toNat = 114 && c2.toNat = 117 && c3.toNat = 101 then
            some (Json.bool true, rest2)
          else none
        | _ => none
      else if c.toNat = 102 then
        match rest with
        | c1 :: c2 :: c3 :: c4 :: rest2 =>
          if c1.toNat = 97 && c2.toNat = 108 && c3.toNat = 115 && c4.toNat = 101 then
            some (Json.bool false, rest2)
          else none
        | _ => none
      else if c.toNat = 34 then
        match parseJString (rest.length + 1) rest [] with
        | some (s, rest2) => some (Json.str s, rest2)
        | none => none
      else if c.toNat = 91 then
        match skipWs rest with
        | d :: rest2 =>
          if d.toNat = 93 then some (Json.arr [], rest2)
          else parseArrItems fuel (skipWs rest) []
        | [] => none
      else if c.toNat = 123 then
        match skipWs rest with
        | d :: rest2 =>
          if d.toNat = 125 then some (Json.obj [], rest2)
          else parseObjItems fuel (skipWs rest) []
        | [] => none
      else if c.toNat = 45 || (48 ≤ c.toNat && c.toNat ≤ 57) then
        match parseNumber (c :: rest) with
        | some (lex, rest2) => some (Json.num lex, rest2)
        | none => none
      else none

/-- Comma-separated array elements up to the closing bracket.  The
accumulator holds the parsed elements in reverse. -/
def parseArrItems : Nat → List Char → List Json → Option (Json × List Char)
  | 0, _, _ => none
  | Nat.succ fuel, cs, acc =>
    match parseValue fuel cs with
    | none => none
    | some (v, r) =>
      match skipWs r with
      | d :: r2 =>
        if d.toNat = 44 then parseArrItems fuel r2 (v :: acc)
        else if d.toNat = 93 then some (Json.arr (v :: acc).reverse, r2)
        else none
      | [] => none

/-- Comma-separated object members up to the closing brace.  The
accumulator collects the fields, a duplicate key overwriting the earlier
value as the serde_json map insert does. -/
def parseObjItems : Nat → List Char → List (String × Json) → Option (Json × List Char)
  | 0, _, _ => none
  | Nat.succ fuel, cs, acc =>
    match skipWs cs with
    | [] => none
    | c :: rest =>
      if c.toNat = 34 then
        match parseJString (rest.length + 1) rest [] with
        | none => none
        | some (k, r) =>
          match skipWs r with
          | d :: r2 =>
            if d.toNat = 58 then
              match parseValue fuel r2 with
              | none => none
              | some (v, r3) =>
                match skipWs r3 with
                | e2 :: r4 =>
                  if e2.toNat = 44 then parseObjItems fuel r4 (insertField acc k v)
                  else if e2.toNat = 125 then
                    some (Json.obj (insertField acc k v), r4)
                  else none
                | [] => none
            else none
          | [] => none
      else none

end

/-- serde_json::from_str on a document text: one JSON value with only
whitespace around it. -/
def from_str (s : String) : Option Json :=
  match parseValue (2 * s.length + 4) s.data with
  | some (v, rest) => if (skipWs rest).isEmpty then some v else none
  | none => none

/-! ## UTF-8, as String::as_bytes writes it and read_to_string reads it -/

/-- UTF-8 encoding of one scalar value, by its code point range. -/
def utf8EncodeChar (c : Char) : List Nat :=
  if c.toNat < 128 then [c.toNat]
  else if c.toNat < 2048 then
    [192 + c.toNat / 64, 128 + c.toNat % 64]
  else if c.toNat < 65536 then
    [224 + c.toNat / 4096, 128 + c.toNat / 64 % 64, 128 + c.toNat % 64]
  else
    [240 + c.toNat / 262144, 128 + c.toNat / 4096 % 64,
     128 + c.toNat / 64 % 64, 128 + c.toNat % 64]

/-- Bytes of a string under UTF-8, as document_json.as_bytes produces
them. -/
def utf8Encode (s : String) : List Nat := s.data.flatMap utf8EncodeChar

/-- Continuation byte test. -/
def isCont (b : Nat) : Bool := 128 ≤ b && b < 192

/-- Scalar value carried by a two-byte UTF-8 sequence. -/
def scalar2 (b b2 : Nat) : Nat := (b - 192) * 64 + (b2 - 128)

/-- Scalar value carried by a three-byte UTF-8 sequence. -/
def scalar3 (b b2 b3 : Nat) : Nat := (b - 224) * 4096 + (b2 - 128) * 64 + (b3 - 128)

/-- Scalar value carried by a four-byte UTF-8 sequence. -/
def scalar4 (b b2 b3 b4 : Nat) : Nat :=
  (b - 240) * 262144 + (b2 - 128) * 4096 + (b3 - 128) * 64 + (b4 - 128)

/-- Decode one UTF-8 sequence at the head of the input, yielding the
character and the remaining bytes.  Strict: rejects overlong forms,
surrogates, out-of-range scalar values, truncated sequences and stray
continuation bytes, as read_to_string does. -/
def utf8DecodeOne : List Nat → Option (Char × List Nat)
  | [] => none
  | b :: rest =>
    if b < 128 then some (Char.ofNat b, rest)
    else if b < 194 then none
    else if b < 224 then
      match rest[0]? with
      | some b2 =>
        if isCont b2 then some (Char.ofNat (scalar2 b b2), rest.drop 1) else none
      | none => none
    else if b < 240 then
      match rest[0]?, rest[1]? with
      | some b2, some b3 =>
        if isCont b2 && isCont b3 then
          if 2048 ≤ scalar3 b b2 b3 &&
              (scalar3 b b2 b3 < 55296 || 57343 < scalar3 b b2 b3) then
            some (Char.ofNat (scalar3 b b2 b3), rest.drop 2)
          else none
        else none
      | _, _ => none
    else if b < 245 then
      match rest[0]?, rest[1]?, rest[2]? with
      | some b2, some b3, some b4 =>
        if isCont b2 && isCont b3 && isCont b4 then
          if 65536 ≤ scalar4 b b2 b3 b4 && scalar4 b b2 b3 b4 < 1114112 then
            some (Char.ofNat (scalar4 b b2 b3 b4), rest.drop 3)
          else none
        else none
      | _, _, _ => none
    else none

/-- Decode a whole byte list one UTF-8 sequence at a time.  The fuel only
bounds the number of decoded characters; since every sequence consumes at
least one byte, fuel equal to the byte count never runs out. -/
def utf8DecodeLoop : Nat → List Nat → Option (List Char)
  | _, [] => some []
  | 0, _ :: _ => none
  | Nat.succ fuel, b :: bs =>
    match utf8DecodeOne (b :: bs) with
    | some (c, rest) => (utf8DecodeLoop fuel rest).map (fun cs => c :: cs)
    | none => none

/-- Strict UTF-8 decoding of a byte list. -/
def utf8DecodeList (bs : List Nat) : Option (List Char) := utf8DecodeLoop bs.length bs

/-- Decode bytes into a string, as read_to_string does: None models its
invalid-data error. -/
def utf8DecodeStr (bs : List Nat) : Option String := (utf8DecodeList bs).map String.mk

/-! ## The zip container, after the zip crate as the core uses it -/

/-- Compression methods the core mentions. -/
inductive CompressionMethod where
  | stored : CompressionMethod
  | deflated : CompressionMethod
deriving DecidableEq

/-- FileOptions of the zip writer: the compression method and the
optional unix permission bits, the two settings the core touches. -/
structure FileOptions where
  method : CompressionMethod
  permissions : Option Nat
deriving DecidableEq

/-- FileOptions::default. -/
def FileOptions.default : FileOptions := ⟨CompressionMethod.deflated, none⟩

/-- FileOptions::compression_method. -/
def FileOptions.compression_method (o : FileOptions) (m : CompressionMethod) : FileOptions :=
  { o with method := m }

/-- FileOptions::unix_permissions. -/
def FileOptions.unix_permissions (o : FileOptions) (m : Nat) : FileOptions :=
  { o with permissions := some m }

/-- One member of a finalized container: its name, its content bytes
(recovered on read exactly as written, the codec being lossless), the
compression method it was stored with and its unix permission
metadata. -/
structure ZipEntry where
  name : String
  data : List Nat
  method : CompressionMethod
  permissions : Option Nat
deriving DecidableEq

/-- Data at a path: either a well-formed finalized container with its
member list, or raw bytes that are not a valid container. -/
inductive FileData where
  | zip (entries : List ZipEntry) : FileData
  | raw (bytes : List Nat) : FileData
deriving DecidableEq

/-- ZipWriter state: the finished members and the member currently open
for writing, with its options and the bytes written so far. -/
structure ZipWriter where
  entries : List ZipEntry
  current : Option (String × FileOptions × List Nat)

/-- ZipWriter::new on a freshly created (truncated) file. -/
def ZipWriter.new : ZipWriter := ⟨[], none⟩

/-- Close the member currently open for writing, appending it to the
finished members. -/
def ZipWriter.closeCurrent (w : ZipWriter) : List ZipEntry :=
  match w.current with
  | none => w.entries
  | some (n, o, d) => w.entries ++ [⟨n, d, o.method, o.permissions⟩]

/-- ZipWriter::start_file: finish any open member and open a new one
with the given name and options.  On a healthy underlying file this
succeeds. -/
def ZipWriter.start_file (w : ZipWriter) (name : String) (o : FileOptions) :
    Except String ZipWriter :=
  Except.ok ⟨w.closeCurrent, some (name, o, [])⟩

/-- Write::write_all on the zip writer: append bytes to the open member;
writing with no member started is an error. -/
def ZipWriter.write_all (w : ZipWriter) (bytes : List Nat) : Except String ZipWriter :=
  match w.current with
  | none => Except.error "No file has been started"
  | some (n, o, d) => Except.ok ⟨w.entries, some (n, o, d ++ bytes)⟩

/-- ZipWriter::finish: close the open member and flush the central
directory, yielding the finalized member list. -/
def ZipWriter.finish (w : ZipWriter) : Except String (List ZipEntry) :=
  Except.ok w.closeCurrent

/-- Failure text of the zip crate when bytes are not a valid container. -/
def zipNewErrMsg : String := "Invalid Zip archive: Could not find central directory end"

/-- Failure text of the zip crate when a named member is absent. -/
def byNameErrMsg : String := "specified file not found in archive"

/-- Failure text of the operating system when a path does not exist. -/
def openErrMsg : String := "No such file or directory (os error 2)"

/-- Failure text of read_to_string on bytes that are not UTF-8. -/
def utf8ErrMsg : String := "stream did not contain valid UTF-8"

/-- Failure text of serde_json on text that is not JSON. -/
def jsonErrMsg : String := "expected value"

/-- ZipArchive::new: index the members of a well-formed container,
rejecting anything else. -/
def zipArchiveNew : FileData → Except String (List ZipEntry)
  | FileData.zip entries => Except.ok entries
  | FileData.raw _ => Except.error zipNewErrMsg

/-- ZipArchive::by_name: look a member up in the name index.  The index
maps each name to the last member bearing it, as the crate builds it by
insertion over the central directory. -/
def by_name (entries : List ZipEntry) (name : String) : Except String ZipEntry :=
  match entries.reverse.find? (fun e => e.name == name) with
  | some e => Except.ok e
  | none => Except.error byNameErrMsg

/-! ## The filesystem and the two operations of the core -/

/-- The filesystem: a map from paths to file data. -/
def FS : Type := String → Option FileData

/-- Write (create or truncate) a file at a path. -/
def FS.update (fs : FS) (path : String) (d : FileData) : FS :=
  fun q => if q = path then some d else fs q

/-- The empty filesystem. -/
def emptyFs : FS := fun _ => none

/-- save_flm from src/src-tauri/src/lib.rs: create or truncate the file
at path, open a zip writer on it, add the single member document.json
with deflate compression and unix permissions 0o644 = 420, write the
payload bytes, finalize.  File creation and the writer steps succeed in
this model (the filesystem is total and healthy); every error branch of
the source is kept. -/
def save_flm (fs : FS) (path : String) (document_json : String) :
    Except String Unit × FS :=
  let zip0 := ZipWriter.new
  let options := (FileOptions.default.compression_method CompressionMethod.deflated).unix_permissions 420
  match zip0.start_file "document.json" options with
  | Except.error e => (Except.error ("Failed to add file to ZIP: " ++ e), fs)
  | Except.ok zip1 =>
    match zip1.write_all (utf8Encode document_json) with
    | Except.error e => (Except.error ("Failed to write to ZIP: " ++ e), fs)
    | Except.ok zip2 =>
      match zip2.finish with
      | Except.error e => (Except.error ("Failed to finalize ZIP: " ++ e), fs)
      | Except.ok entries => (Except.ok (), fs.update path (FileData.zip entries))

/-- load_flm from src/src-tauri/src/lib.rs: open the file, read it as a
zip container, find the member document.json, read its bytes as UTF-8
text, parse the text as JSON, check the format field equals flowmark,
and return the original text. -/
def load_flm (fs : FS) (path : String) : Except String String :=
  match fs path with
  | none => Except.error ("Failed to open file: " ++ openErrMsg)
  | some fileData =>
    match zipArchiveNew fileData with
    | Except.error e => Except.error ("Failed to read ZIP: " ++ e)
    | Except.ok archive =>
      match by_name archive "document.json" with
      | Except.error e => Except.error ("document.json not found in .flm file: " ++ e)
      | Except.ok document_file =>
        match utf8DecodeStr document_file.data with
        | none => Except.error ("Failed to read document.json: " ++ utf8ErrMsg)
        | some document_json =>
          match from_str document_json with
          | none => Except.error ("Invalid JSON in document.json: " ++ jsonErrMsg)
          | some doc =>
            if (doc.get "format").bind Json.asStr ≠ some "flowmark" then
              Except.error "Invalid format: expected \x27flowmark\x27"
            else
              Except.ok document_json

/-! ## Lemmas about the embedded codecs -/

/-- Decoding one sequence inverts encoding one character. -/
theorem utf8DecodeOne_encodeChar (c : Char) (bs : List Nat) :
    utf8DecodeOne (utf8EncodeChar c ++ bs) = some (c, bs) := by
  have hv : c.toNat < 55296 ∨ (57343 < c.toNat ∧ c.toNat < 1114112) := c.valid
  have hofn : Char.ofNat c.toNat = c := Char.ofNat_toNat c
  by_cases h1 : c.toNat < 128
  · rw [utf8EncodeChar, if_pos h1, List.cons_append, List.nil_append]
    rw [utf8DecodeOne, if_pos h1, hofn]
  · by_cases h2 : c.toNat < 2048
    · rw [utf8EncodeChar, if_neg h1, if_pos h2, List.cons_append, List.cons_append,
        List.nil_append]
      rw [utf8DecodeOne, if_neg (by omega), if_neg (by omega), if_pos (by omega)]
      simp only [List.getElem?_cons_zero]
      have hcont : isCont (128 + c.toNat % 64) = true := by
        simp only [isCont, Bool.and_eq_true, decide_eq_true_eq]
        omega
      rw [if_pos hcont]
      have harg : scalar2 (192 + c.toNat / 64) (128 + c.toNat % 64) = c.toNat := by
        simp only [scalar2]
        omega
      rw [harg, hofn]
      simp
    · by_cases h3 : c.toNat < 65536
      · rw [utf8EncodeChar, if_neg h1, if_neg h2, if_pos h3, List.cons_append,
          List.cons_append, List.cons_append, List.nil_append]
        rw [utf8DecodeOne, if_neg (by omega), if_neg (by omega), if_neg (by omega),
          if_pos (by omega)]
        simp only [List.getElem?_cons_zero, List.getElem?_cons_succ]
        have hcont : (isCont (128 + c.toNat / 64 % 64) && isCont (128 + c.toNat % 64)) = true := by
          simp only [isCont, Bool.and_eq_true, decide_eq_true_eq]
          omega
        rw [if_pos hcont]
        have harg : scalar3 (224 + c.toNat / 4096) (128 + c.toNat / 64 % 64)
            (128 + c.toNat % 64) = c.toNat := by
          simp only [scalar3]
          omega
        rw [harg]
        rw [if_pos (by simp only [Bool.and_eq_true, Bool.or_eq_true, decide_eq_true_eq]; omega),
          hofn]
        simp
      · rw [utf8EncodeChar, if_neg h1, if_neg h2, if_neg h3, List.cons_append,
          List.cons_append, List.cons_append, List.cons_append, List.nil_append]
        have hub : c.toNat < 1114112 := by omega
        rw [utf8DecodeOne, if_neg (by omega), if_neg (by omega), if_neg (by omega),
          if_neg (by omega), if_pos (by omega)]
        simp only [List.getElem?_cons_zero, List.getElem?_cons_succ]
        have hcont : (isCont (128 + c.toNat / 4096 % 64) && isCont (128 + c.toNat / 64 % 64) &&
            isCont (128 + c.toNat % 64)) = true := by
          simp only [isCont, Bool.and_eq_true, decide_eq_true_eq]
          omega
        rw [if_pos hcont]
        have harg : scalar4 (240 + c.toNat / 262144) (128 + c.toNat / 4096 % 64)
            (128 + c.toNat / 64 % 64) (128 + c.toNat % 64) = c.toNat := by
          simp only [scalar4]
          omega
        rw [harg]
        rw [if_pos (by simp only [Bool.and_eq_true, decide_eq_true_eq]; omega), hofn]
        simp

/-- The encoding of a character is never empty. -/
theorem utf8EncodeChar_ne_nil (c : Char) : utf8EncodeChar c ≠ [] := by
  unfold utf8EncodeChar
  split
  · simp
  · split
    · simp
    · split
      · simp
      · simp

/-- With fuel at least the character count, the decode loop inverts the
encoding of a character list. -/
theorem utf8DecodeLoop_encode (l : List Char) :
    ∀ fuel : Nat, l.length ≤ fuel →
      utf8DecodeLoop fuel (l.flatMap utf8EncodeChar) = some l := by
  induction l with
  | nil =>
    intro fuel _
    rw [List.flatMap_nil]
    cases fuel with
    | zero => rw [utf8DecodeLoop]
    | succ f => rw [utf8DecodeLoop]
  | cons c l ih =>
    intro fuel hfuel
    cases fuel with
    | zero => simp at hfuel
    | succ f =>
      cases hE : utf8EncodeChar c with
      | nil => exact absurd hE (utf8EncodeChar_ne_nil c)
      | cons b bs0 =>
        rw [List.flatMap_cons, hE, List.cons_append, utf8DecodeLoop]
        have hone : utf8DecodeOne (b :: (bs0 ++ l.flatMap utf8EncodeChar)) =
            some (c, l.flatMap utf8EncodeChar) := by
          rw [← List.cons_append, ← hE, utf8DecodeOne_encodeChar]
        rw [hone]
        show (utf8DecodeLoop f (l.flatMap utf8EncodeChar)).map (fun cs => c :: cs) =
          some (c :: l)
        rw [ih f (by simpa using hfuel)]
        rfl

/-- Each character contributes at least one byte, so the byte count is
enough fuel. -/
theorem length_le_flatMap_encode (l : List Char) :
    l.length ≤ (l.flatMap utf8EncodeChar).length := by
  induction l with
  | nil => simp
  | cons c l ih =>
    rw [List.flatMap_cons, List.length_append, List.length_cons]
    have h1 : 1 ≤ (utf8EncodeChar c).length := by
      cases hE : utf8EncodeChar c with
      | nil => exact absurd hE (utf8EncodeChar_ne_nil c)
      | cons b bs0 => simp
    omega

/-- UTF-8 round trip on byte lists. -/
theorem utf8DecodeList_encode (l : List Char) :
    utf8DecodeList (l.flatMap utf8EncodeChar) = some l := by
  unfold utf8DecodeList
  exact utf8DecodeLoop_encode l _ (length_le_flatMap_encode l)

/-- UTF-8 round trip: the bytes save_flm stores decode back to the very
string that was saved. -/
theorem utf8DecodeStr_encode (s : String) : utf8DecodeStr (utf8Encode s) = some s := by
  unfold utf8DecodeStr utf8Encode
  rw [utf8DecodeList_encode]
  rfl

/-! ## Lemmas about the container lookup -/

/-- Lookup misses when no member bears the name. -/
theorem by_name_eq_error (entries : List ZipEntry) (name : String)
    (h : ∀ e ∈ entries, e.name ≠ name) :
    by_name entries name = Except.error byNameErrMsg := by
  unfold by_name
  have hfind : entries.reverse.find? (fun e => e.name == name) = none := by
    rw [List.find?_eq_none]
    intro x hx
    have hne := h x (List.mem_reverse.mp hx)
    simp [hne]
  rw [hfind]

/-- Lookup returns the member bearing the name when no later member
shares it. -/
theorem by_name_eq_ok (pre post : List ZipEntry) (entry : ZipEntry) (name : String)
    (hname : entry.name = name)
    (hpost : ∀ e ∈ post, e.name ≠ name) :
    by_name (pre ++ entry :: post) name = Except.ok entry := by
  unfold by_name
  rw [List.reverse_append, List.reverse_cons, List.find?_append, List.find?_append]
  have hpostn : post.reverse.find? (fun e => e.name == name) = none := by
    rw [List.find?_eq_none]
    intro x hx
    have hne := hpost x (List.mem_reverse.mp hx)
    simp [hne]
  rw [hpostn]
  have hhit : List.find? (fun e => e.name == name) [entry] = some entry :=
    List.find?_cons_of_pos _ (by simp [hname])
  rw [hhit]
  rfl

/-! ## Evaluation lemmas for the two operations -/

/-- What save_flm computes: the writer chain finalizes to the single
member, stored at the path. -/
theorem save_flm_eq (fs : FS) (path d : String) :
    save_flm fs path d =
      (Except.ok (), fs.update path (FileData.zip
        [⟨"document.json", utf8Encode d, CompressionMethod.deflated, some 420⟩])) :=
  rfl

/-- Reduce load_flm once the member is found and decoded. -/
theorem load_flm_found (fs : FS) (path : String) (entries : List ZipEntry)
    (entry : ZipEntry) (s : String)
    (hfs : fs path = some (FileData.zip entries))
    (hfind : by_name entries "document.json" = Except.ok entry)
    (hdec : utf8DecodeStr entry.data = some s) :
    load_flm fs path =
      match from_str s with
      | none => Except.error ("Invalid JSON in document.json: " ++ jsonErrMsg)
      | some doc =>
        if (doc.get "format").bind Json.asStr ≠ some "flowmark" then
          Except.error "Invalid format: expected \x27flowmark\x27"
        else Except.ok s := by
  unfold load_flm
  simp only [hfs, zipArchiveNew, hfind, hdec]

/-- The schema-tag error branch of load_flm. -/
theorem load_flm_tag_error (fs : FS) (path : String) (entries : List ZipEntry)
    (entry : ZipEntry) (s : String) (v : Json)
    (hfs : fs path = some (FileData.zip entries))
    (hfind : by_name entries "document.json" = Except.ok entry)
    (hdec : utf8DecodeStr entry.data = some s)
    (hparse : from_str s = some v)
    (htag : (v.get "format").bind Json.asStr ≠ some "flowmark") :
    load_flm fs path = Except.error "Invalid format: expected \x27flowmark\x27" := by
  rw [load_flm_found fs path entries entry s hfs hfind hdec, hparse]
  show (if (v.get "format").bind Json.asStr ≠ some "flowmark" then
      Except.error "Invalid format: expected \x27flowmark\x27"
    else Except.ok s) = Except.error "Invalid format: expected \x27flowmark\x27"
  rw [if_pos htag]

/-- The success branch of load_flm. -/
theorem load_flm_success (fs : FS) (path : String) (entries : List ZipEntry)
    (entry : ZipEntry) (s : String) (v : Json)
    (hfs : fs path = some (FileData.zip entries))
    (hfind : by_name entries "document.json" = Except.ok entry)
    (hdec : utf8DecodeStr entry.data = some s)
    (hparse : from_str s = some v)
    (htag : (v.get "format").bind Json.asStr = some "flowmark") :
    load_flm fs path = Except.ok s := by
  rw [load_flm_found fs path entries entry s hfs hfind hdec, hparse]
  show (if (v.get "format").bind Json.asStr ≠ some "flowmark" then
      Except.error "Invalid format: expected \x27flowmark\x27"
    else Except.ok s) = Except.ok s
  rw [if_neg (not_not_intro htag)]

/-! ## Concrete fixtures for closed checks -/

/-- A compliant document text. -/
def docOk : String := "\x7b\"format\":\"flowmark\",\"title\":\"x\"\x7d"

/-- The parsed form of docOk. -/
def docOkVal : Json := Json.obj [("format", Json.str "flowmark"), ("title", Json.str "x")]

/-- A document text with no format field. -/
def docNoTag : String := "\x7b\"title\":\"x\"\x7d"

/-- The parsed form of docNoTag. -/
def docNoTagVal : Json := Json.obj [("title", Json.str "x")]

/-- A document text that is a JSON array, not an object. -/
def docArr : String := "[1,2]"

/-- The parsed form of docArr. -/
def docArrVal : Json := Json.arr [Json.num "1", Json.num "2"]

/-- The member save_flm builds for docOk. -/
def entryOk : ZipEntry :=
  ⟨"document.json", utf8Encode docOk, CompressionMethod.deflated, some 420⟩

/-- The member save_flm builds for docNoTag. -/
def entryNoTag : ZipEntry :=
  ⟨"document.json", utf8Encode docNoTag, CompressionMethod.deflated, some 420⟩

/-- A member holding the array document. -/
def entryArr : ZipEntry :=
  ⟨"document.json", utf8Encode docArr, CompressionMethod.deflated, some 420⟩

/-- An unrelated container member. -/
def entryMeta : ZipEntry := ⟨"meta.txt", [77], CompressionMethod.stored, none⟩

/-- Another unrelated container member. -/
def entryThumb : ZipEntry := ⟨"thumb.png", [1, 2], CompressionMethod.deflated, none⟩

/-- A filesystem holding a compliant container. -/
def fsOk : FS := FS.update emptyFs "a.flm" (FileData.zip [entryOk])

/-- A filesystem holding a container whose document lacks the tag. -/
def fsNoTag : FS := FS.update emptyFs "b.flm" (FileData.zip [entryNoTag])

/-- A filesystem holding a container whose document is an array. -/
def fsArr : FS := FS.update emptyFs "d.flm" (FileData.zip [entryArr])

/-- A filesystem holding a well-formed container with no members. -/
def fsEmptyZip : FS := FS.update emptyFs "e.flm" (FileData.zip [])

/-- A filesystem holding a container with three members, the payload in
the middle. -/
def fsMulti : FS :=
  FS.update emptyFs "m.flm" (FileData.zip [entryMeta, entryOk, entryThumb])

/-! ## The claims -/

/-- C1: Round-trip: for every filesystem, path and document text d whose
parse carries a string field format equal to flowmark, save_flm followed
by load_flm at the same path succeeds and returns exactly d, byte for
byte. -/
theorem save_then_load_roundtrip (fs : FS) (path d : String) (v : Json)
    (hparse : from_str d = some v)
    (htag : (v.get "format").bind Json.asStr = some "flowmark") :
    (save_flm fs path d).1 = Except.ok () ∧
    load_flm (save_flm fs path d).2 path = Except.ok d := by
  rw [save_flm_eq]
  refine ⟨rfl, ?_⟩
  refine load_flm_success _ path
    [⟨"document.json", utf8Encode d, CompressionMethod.deflated, some 420⟩]
    ⟨"document.json", utf8Encode d, CompressionMethod.deflated, some 420⟩
    d v ?_ ?_ (utf8DecodeStr_encode d) hparse htag
  · unfold FS.update
    simp
  · exact by_name_eq_ok [] [] _ "document.json" rfl (by intro e he; cases he)

/-- Witness for C1 at a concrete compliant document. -/
theorem save_then_load_roundtrip_witness :
    (save_flm emptyFs "a.flm" docOk).1 = Except.ok () ∧
    load_flm (save_flm emptyFs "a.flm" docOk).2 "a.flm" = Except.ok docOk :=
  save_then_load_roundtrip emptyFs "a.flm" docOk docOkVal rfl rfl

/-- C2: Load postcondition: when load_flm returns Ok s, the string s
parses as JSON whose format field is the string flowmark, and s is the
exact decoded text of the document.json member stored in the container,
not a re-serialization. -/
theorem load_ok_postcondition (fs : FS) (path s : String)
    (h : load_flm fs path = Except.ok s) :
    (∃ v, from_str s = some v ∧ (v.get "format").bind Json.asStr = some "flowmark") ∧
    (∃ entries entry, fs path = some (FileData.zip entries) ∧
      by_name entries "document.json" = Except.ok entry ∧
      utf8DecodeStr entry.data = some s) := by
  unfold load_flm at h
  cases hfs : fs path with
  | none =>
    simp only [hfs] at h
    exact Except.noConfusion h
  | some fd =>
    simp only [hfs] at h
    cases fd with
    | raw b =>
      simp only [zipArchiveNew] at h
      exact Except.noConfusion h
    | zip entries =>
      simp only [zipArchiveNew] at h
      cases hfind : by_name entries "document.json" with
      | error e =>
        simp only [hfind] at h
        exact Except.noConfusion h
      | ok entry =>
        simp only [hfind] at h
        cases hdec : utf8DecodeStr entry.data with
        | none =>
          simp only [hdec] at h
          exact Except.noConfusion h
        | some t =>
          simp only [hdec] at h
          cases hparse : from_str t with
          | none =>
            simp only [hparse] at h
            exact Except.noConfusion h
          | some v =>
            simp only [hparse] at h
            by_cases htag : (v.get "format").bind Json.asStr ≠ some "flowmark"
            · rw [if_pos htag] at h
              exact Except.noConfusion h
            · rw [if_neg htag] at h
              rw [not_not] at htag
              have hts : t = s := by simpa using h
              subst hts
              exact ⟨⟨v, hparse, htag⟩, entries, entry, rfl, hfind, hdec⟩

/-- Witness for C2 on a concrete compliant container. -/
theorem load_ok_postcondition_witness :
    (∃ v, from_str docOk = some v ∧ (v.get "format").bind Json.asStr = some "flowmark") ∧
    (∃ entries entry, fsOk "a.flm" = some (FileData.zip entries) ∧
      by_name entries "document.json" = Except.ok entry ∧
      utf8DecodeStr entry.data = some docOk) :=
  load_ok_postcondition fsOk "a.flm" docOk rfl

/-- C3: Tag enforcement: when the stored document parses but its format
field is absent or not the string flowmark, load_flm returns the
schema-tag error and never the payload. -/
theorem tag_enforcement (fs : FS) (path : String) (entries : List ZipEntry)
    (entry : ZipEntry) (s : String) (v : Json)
    (hfs : fs path = some (FileData.zip entries))
    (hfind : by_name entries "document.json" = Except.ok entry)
    (hdec : utf8DecodeStr entry.data = some s)
    (hparse : from_str s = some v)
    (htag : v.get "format" ≠ some (Json.str "flowmark")) :
    load_flm fs path = Except.error "Invalid format: expected \x27flowmark\x27" ∧
    ∀ t, load_flm fs path ≠ Except.ok t := by
  have htag2 : (v.get "format").bind Json.asStr ≠ some "flowmark" := by
    intro hbind
    rcases Option.bind_eq_some.mp hbind with ⟨j, hget, hstr⟩
    cases j <;> simp [Json.asStr] at hstr
    subst hstr
    exact htag hget
  have herr := load_flm_tag_error fs path entries entry s v hfs hfind hdec hparse htag2
  refine ⟨herr, fun t hok => ?_⟩
  rw [herr] at hok
  exact Except.noConfusion hok

/-- Witness for C3 on a concrete untagged container. -/
theorem tag_enforcement_witness :
    load_flm fsNoTag "b.flm" = Except.error "Invalid format: expected \x27flowmark\x27" ∧
    ∀ t, load_flm fsNoTag "b.flm" ≠ Except.ok t :=
  tag_enforcement fsNoTag "b.flm" [entryNoTag] entryNoTag docNoTag docNoTagVal
    rfl rfl (utf8DecodeStr_encode docNoTag) rfl (fun h => Option.noConfusion h)

/-- C4 counterexample: save_flm accepts and writes the payload holding
only an empty object, and the stored document.json text parses to a
value with no format field at all, so not every container save_flm
writes satisfies the format-tag check. -/
theorem save_writes_untagged_container_cex :
    (save_flm emptyFs "c.flm" "\x7b\x7d").1 = Except.ok () ∧
    (save_flm emptyFs "c.flm" "\x7b\x7d").2 "c.flm" =
      some (FileData.zip [⟨"document.json", utf8Encode "\x7b\x7d",
        CompressionMethod.deflated, some 420⟩]) ∧
    from_str "\x7b\x7d" = some (Json.obj []) ∧
    (Json.obj []).get "format" = none := by
  refine ⟨rfl, ?_, rfl, rfl⟩
  rw [save_flm_eq]
  unfold FS.update
  simp

/-- C4 amended: the container save_flm writes stores the payload text
verbatim, so it satisfies the format-tag check exactly when the supplied
payload does: every payload whose parse carries format = flowmark yields
a container whose stored document.json text passes the check. -/
theorem save_tag_invariant_conditional (fs : FS) (path d : String) (v : Json)
    (hparse : from_str d = some v)
    (htag : (v.get "format").bind Json.asStr = some "flowmark") :
    ∃ entries entry, (save_flm fs path d).2 path = some (FileData.zip entries) ∧
      by_name entries "document.json" = Except.ok entry ∧
      utf8DecodeStr entry.data = some d ∧
      from_str d = some v ∧
      (v.get "format").bind Json.asStr = some "flowmark" := by
  refine ⟨[⟨"document.json", utf8Encode d, CompressionMethod.deflated, some 420⟩],
    ⟨"document.json", utf8Encode d, CompressionMethod.deflated, some 420⟩,
    ?_, ?_, utf8DecodeStr_encode d, hparse, htag⟩
  · rw [save_flm_eq]
    unfold FS.update
    simp
  · exact by_name_eq_ok [] [] _ "document.json" rfl (by intro e he; cases he)

/-- Witness for the amended C4 at a concrete compliant document. -/
theorem save_tag_invariant_conditional_witness :
    ∃ entries entry, (save_flm emptyFs "a.flm" docOk).2 "a.flm" =
        some (FileData.zip entries) ∧
      by_name entries "document.json" = Except.ok entry ∧
      utf8DecodeStr entry.data = some docOk ∧
      from_str docOk = some docOkVal ∧
      (docOkVal.get "format").bind Json.asStr = some "flowmark" :=
  save_tag_invariant_conditional emptyFs "a.flm" docOk docOkVal rfl rfl

/-- C5: save_flm performs no format-tag validation on write: in this
model, where file creation and the archive steps succeed, it returns Ok
for every payload string whatsoever, tagged or not. -/
theorem save_accepts_any_payload (fs : FS) (path d : String) :
    (save_flm fs path d).1 = Except.ok () := by
  rw [save_flm_eq]

/-- C6: a well-formed container with no document.json member makes
load_flm fail with the member-absence error, and that message differs
from the container-format error message. -/
theorem member_absence_distinct_error (fs : FS) (path : String)
    (entries : List ZipEntry)
    (hfs : fs path = some (FileData.zip entries))
    (hno : ∀ e ∈ entries, e.name ≠ "document.json") :
    load_flm fs path =
      Except.error ("document.json not found in .flm file: " ++ byNameErrMsg) ∧
    ("document.json not found in .flm file: " ++ byNameErrMsg) ≠
      ("Failed to read ZIP: " ++ zipNewErrMsg) := by
  constructor
  · unfold load_flm
    simp only [hfs, zipArchiveNew, by_name_eq_error entries "document.json" hno]
  · decide

/-- Witness for C6 on a concrete empty container. -/
theorem member_absence_distinct_error_witness :
    load_flm fsEmptyZip "e.flm" =
      Except.error ("document.json not found in .flm file: " ++ byNameErrMsg) ∧
    ("document.json not found in .flm file: " ++ byNameErrMsg) ≠
      ("Failed to read ZIP: " ++ zipNewErrMsg) :=
  member_absence_distinct_error fsEmptyZip "e.flm" [] rfl (by intro e he; cases he)

/-- C7: save_flm writes at the path a finalized container holding
exactly one member, named document.json, stored with the deflate method
and unix permissions 420 = 0o644, whose content is exactly the UTF-8
bytes of the payload; every other path is untouched. -/
theorem save_archive_contents (fs : FS) (path d : String) :
    (save_flm fs path d).1 = Except.ok () ∧
    (save_flm fs path d).2 path = some (FileData.zip
      [⟨"document.json", utf8Encode d, CompressionMethod.deflated, some 420⟩]) ∧
    ∀ q, q ≠ path → (save_flm fs path d).2 q = fs q := by
  rw [save_flm_eq]
  refine ⟨rfl, ?_, ?_⟩
  · unfold FS.update
    simp
  · intro q hq
    unfold FS.update
    simp [hq]

/-- Witness for C7: an unrelated path is untouched by a concrete save. -/
theorem save_archive_contents_witness :
    (save_flm emptyFs "a.flm" docOk).2 "other" = emptyFs "other" :=
  (save_archive_contents emptyFs "a.flm" docOk).2.2 "other" (by decide)

/-- C8: load_flm is a strict-order early-exit pipeline over the stages
open, decode-container, locate-member, read-text, parse-structure,
check-format-tag: the first failing stage fixes the result, and a later
stage runs only when every earlier one succeeded. -/
theorem load_pipeline_early_exit (fs : FS) (path : String) :
    (fs path = none →
      load_flm fs path = Except.error ("Failed to open file: " ++ openErrMsg)) ∧
    (∀ b, fs path = some (FileData.raw b) →
      load_flm fs path = Except.error ("Failed to read ZIP: " ++ zipNewErrMsg)) ∧
    (∀ entries, fs path = some (FileData.zip entries) →
      by_name entries "document.json" = Except.error byNameErrMsg →
      load_flm fs path =
        Except.error ("document.json not found in .flm file: " ++ byNameErrMsg)) ∧
    (∀ entries entry, fs path = some (FileData.zip entries) →
      by_name entries "document.json" = Except.ok entry →
      utf8DecodeStr entry.data = none →
      load_flm fs path =
        Except.error ("Failed to read document.json: " ++ utf8ErrMsg)) ∧
    (∀ entries entry s, fs path = some (FileData.zip entries) →
      by_name entries "document.json" = Except.ok entry →
      utf8DecodeStr entry.data = some s →
      from_str s = none →
      load_flm fs path =
        Except.error ("Invalid JSON in document.json: " ++ jsonErrMsg)) ∧
    (∀ entries entry s v, fs path = some (FileData.zip entries) →
      by_name entries "document.json" = Except.ok entry →
      utf8DecodeStr entry.data = some s →
      from_str s = some v →
      (v.get "format").bind Json.asStr ≠ some "flowmark" →
      load_flm fs path = Except.error "Invalid format: expected \x27flowmark\x27") ∧
    (∀ entries entry s v, fs path = some (FileData.zip entries) →
      by_name entries "document.json" = Except.ok entry →
      utf8DecodeStr entry.data = some s →
      from_str s = some v →
      (v.get "format").bind Json.asStr = some "flowmark" →
      load_flm fs path = Except.ok s) := by
  refine ⟨?_, ?_, ?_, ?_, ?_, ?_, ?_⟩
  · intro hfs
    unfold load_flm
    simp only [hfs]
  · intro b hfs
    unfold load_flm
    simp only [hfs, zipArchiveNew]
  · intro entries hfs hfind
    unfold load_flm
    simp only [hfs, zipArchiveNew, hfind]
  · intro entries entry hfs hfind hdec
    unfold load_flm
    simp only [hfs, zipArchiveNew, hfind, hdec]
  · intro entries entry s hfs hfind hdec hparse
    rw [load_flm_found fs path entries entry s hfs hfind hdec, hparse]
  · intro entries entry s v hfs hfind hdec hparse htag
    exact load_flm_tag_error fs path entries entry s v hfs hfind hdec hparse htag
  · intro entries entry s v hfs hfind hdec hparse htag
    exact load_flm_success fs path entries entry s v hfs hfind hdec hparse htag

/-- Witness for C8: the open stage fails on an absent path. -/
theorem load_pipeline_early_exit_witness :
    load_flm emptyFs "missing.flm" =
      Except.error ("Failed to open file: " ++ openErrMsg) :=
  (load_pipeline_early_exit emptyFs "missing.flm").1 rfl

/-- C9: text that parses as JSON but is not an object, or whose format
field is present but not a JSON string, makes load_flm fail with the
schema-tag error, not the invalid-JSON parse error. -/
theorem nonobject_or_nonstring_format_error (fs : FS) (path : String)
    (entries : List ZipEntry) (entry : ZipEntry) (s : String) (v : Json)
    (hfs : fs path = some (FileData.zip entries))
    (hfind : by_name entries "document.json" = Except.ok entry)
    (hdec : utf8DecodeStr entry.data = some s)
    (hparse : from_str s = some v)
    (hshape : (∀ kvs, v ≠ Json.obj kvs) ∨
      ∃ j, v.get "format" = some j ∧ Json.asStr j = none) :
    load_flm fs path = Except.error "Invalid format: expected \x27flowmark\x27" := by
  refine load_flm_tag_error fs path entries entry s v hfs hfind hdec hparse ?_
  rcases hshape with hobj | ⟨j, hget, hstr⟩
  · intro hbind
    rcases Option.bind_eq_some.mp hbind with ⟨j, hget, _⟩
    cases hv : v with
    | obj kvs => exact hobj kvs hv
    | null => rw [hv] at hget; exact Option.noConfusion hget
    | bool b => rw [hv] at hget; exact Option.noConfusion hget
    | num l => rw [hv] at hget; exact Option.noConfusion hget
    | str t => rw [hv] at hget; exact Option.noConfusion hget
    | arr xs => rw [hv] at hget; exact Option.noConfusion hget
  · intro hbind
    rw [hget] at hbind
    rw [Option.some_bind, hstr] at hbind
    exact Option.noConfusion hbind

/-- Witness for C9 on a concrete container holding a JSON array. -/
theorem nonobject_or_nonstring_format_error_witness :
    load_flm fsArr "d.flm" = Except.error "Invalid format: expected \x27flowmark\x27" :=
  nonobject_or_nonstring_format_error fsArr "d.flm" [entryArr] entryArr docArr docArrVal
    rfl rfl (utf8DecodeStr_encode docArr) rfl
    (Or.inl (fun _ h => Json.noConfusion h))

/-- C10: a container with additional members around a valid
document.json member loads that member's text; the extra members are
ignored (no later member may shadow the payload name, matching the
last-wins member index). -/
theorem extra_members_ignored (fs : FS) (path : String) (pre post : List ZipEntry)
    (entry : ZipEntry) (s : String) (v : Json)
    (hfs : fs path = some (FileData.zip (pre ++ entry :: post)))
    (hname : entry.name = "document.json")
    (hpost : ∀ e ∈ post, e.name ≠ "document.json")
    (hdec : utf8DecodeStr entry.data = some s)
    (hparse : from_str s = some v)
    (htag : (v.get "format").bind Json.asStr = some "flowmark") :
    load_flm fs path = Except.ok s :=
  load_flm_success fs path (pre ++ entry :: post) entry s v hfs
    (by_name_eq_ok pre post entry "document.json" hname hpost) hdec hparse htag

/-- Witness for C10 on a three-member container. -/
theorem extra_members_ignored_witness :
    load_flm fsMulti "m.flm" = Except.ok docOk :=
  extra_members_ignored fsMulti "m.flm" [entryMeta] [entryThumb] entryOk docOk docOkVal
    rfl rfl
    (by intro e he; simp only [List.mem_singleton] at he; subst he; decide)
    (utf8DecodeStr_encode docOk) rfl rfl

end Flowmarker
